import Mathlib

/-!
Verification of the message converter of `aisuite/providers/google_rest_provider.py`
(`GoogleRestMessageConverter.convert_request` and
`GoogleRestMessageConverter.convert_response`).

The Python code manipulates JSON-like dictionaries; we embed those as an
inductive `JsonVal` type.  Python's `json.loads` is an external library
function, so the embedding takes it as an explicit parameter
`loads : String → Option JsonVal` (`none` models a `json.JSONDecodeError`
being raised).  Python's salted string `hash` is likewise taken as a
parameter `pyHash : String → Int`: it is an arbitrary but fixed function of
the string during one process.  Exceptions are modelled with `Except`.
-/

namespace GoogleRest

/-- JSON values, the embedding of the dynamic dict/list/str/num values the
Python code passes around.  Numbers are modelled as integers (no claim
depends on float behaviour). -/
inductive JsonVal where
  | null : JsonVal
  | bool (b : Bool) : JsonVal
  | num (n : Int) : JsonVal
  | str (s : String) : JsonVal
  | arr (elems : List JsonVal) : JsonVal
  | obj (members : List (String × JsonVal)) : JsonVal

/-- Python truthiness of a JSON value (`if system_instruction:` at line 88 of
the source): `None`, `False`, `0`, `""`, `[]` and `\x7b\x7d` are falsy. -/
def truthy : JsonVal → Bool
  | JsonVal.null => false
  | JsonVal.bool b => b
  | JsonVal.num n => n ≠ 0
  | JsonVal.str s => s ≠ ""
  | JsonVal.arr elems => ¬ elems.isEmpty
  | JsonVal.obj members => ¬ members.isEmpty

/-- Escape of one character inside a JSON string literal (the fragment of
`json.dumps` escaping the claims can exercise). -/
def escape_char (c : Char) : String :=
  if c = '\"' then "\\\"" else if c = '\\' then "\\\\" else String.singleton c

/-- Escape of a string for inclusion in JSON output. -/
def escape_string (s : String) : String :=
  String.join (s.toList.map escape_char)

mutual
/-- Embedding of Python's `json.dumps` with its default separators
(`", "` and `": "`), used at line 121 of the source to serialize the
argument map of a function call. -/
def json_dumps : JsonVal → String
  | JsonVal.null => "null"
  | JsonVal.bool true => "true"
  | JsonVal.bool false => "false"
  | JsonVal.num n => toString n
  | JsonVal.str s => "\"" ++ escape_string s ++ "\""
  | JsonVal.arr elems => "[" ++ dumps_list elems ++ "]"
  | JsonVal.obj members => "\x7b" ++ dumps_obj members ++ "\x7d"

/-- Comma-separated serialization of a JSON array body. -/
def dumps_list : List JsonVal → String
  | [] => ""
  | [v] => json_dumps v
  | v :: vs => json_dumps v ++ ", " ++ dumps_list vs

/-- Comma-separated serialization of a JSON object body. -/
def dumps_obj : List (String × JsonVal) → String
  | [] => ""
  | [(k, v)] => "\"" ++ escape_string k ++ "\": " ++ json_dumps v
  | (k, v) :: kvs =>
      "\"" ++ escape_string k ++ "\": " ++ json_dumps v ++ ", " ++ dumps_obj kvs
end

/-- The `"function"` sub-dict of an aisuite tool call
(`tool_call["function"]` at line 59 of the source): a function name and a
JSON-encoded arguments string. -/
structure ToolCallFunction where
  name : String
  arguments : String
deriving Repr, DecidableEq

/-- One entry of an assistant message's `tool_calls` list. -/
structure ToolCallIn where
  id : String := ""
  function : ToolCallFunction
deriving Repr, DecidableEq

/-- An aisuite chat message as `convert_request` reads it: `message["role"]`,
`message.get("content", "")`, the optional `tool_calls` list (`[]` embeds
"key absent, None, or empty", all of which the source treats alike at
line 56), and the `name` key read for tool messages. -/
structure ChatMessage where
  role : String
  content : JsonVal := JsonVal.str ""
  tool_calls : List ToolCallIn := []
  name : String := ""

/-- A part of a vendor request turn: `\x7b"text": ...\x7d`,
`\x7b"function_call": \x7b"name", "args"\x7d\x7d` or
`\x7b"function_response": \x7b"name", "response"\x7d\x7d`. -/
inductive Part where
  | text (value : JsonVal) : Part
  | function_call (name : String) (args : JsonVal) : Part
  | function_response (name : String) (response : JsonVal) : Part

/-- One vendor turn: a role string and ordered parts. -/
structure Turn where
  role : String
  parts : List Part

/-- The request payload fragment built by `convert_request`:
`request_data["contents"]` and the optional `"systemInstruction"` key
(whose value the source wraps as `\x7b"parts": [\x7b"text": v\x7d]\x7d`;
we record the wrapped value `v`, `none` meaning the key is absent). -/
structure RequestPayload where
  contents : List Turn
  systemInstruction : Option JsonVal

/-- The Python exceptions the converter can raise: `json.JSONDecodeError`
(from `json.loads`), `KeyError`/`IndexError` (dict/list lookups inside
`convert_response`), and the `ValueError` that `convert_response` wraps
them in. -/
inductive PyErr where
  | jsonDecodeError (doc : String) : PyErr
  | keyError (key : String) : PyErr
  | indexError : PyErr
  | valueError (msg : String) : PyErr
deriving Repr, DecidableEq

/-- `str(e)` for the exceptions caught at line 143 of the source. -/
def PyErr.text : PyErr → String
  | PyErr.jsonDecodeError doc => "Expecting value: " ++ doc
  | PyErr.keyError key => "'" ++ key ++ "'"
  | PyErr.indexError => "list index out of range"
  | PyErr.valueError msg => msg

/-- `json.loads(s)`: the parse result when it succeeds, a raised
`JSONDecodeError` when the external parser rejects the document. -/
def json_loads_or_raise (loads : String → Option JsonVal) (s : String) :
    Except PyErr JsonVal :=
  match loads s with
  | some v => Except.ok v
  | none => Except.error (PyErr.jsonDecodeError s)

/-- The inner `for tool_call in message["tool_calls"]` loop at lines 58-68
of the source, producing the model turns it appends.  A `json.loads`
failure aborts the whole of `convert_request`, so accumulating the turns
before appending is observationally equivalent to appending inside the
loop. -/
def tool_call_turns (loads : String → Option JsonVal) :
    List ToolCallIn → Except PyErr (List Turn)
  | [] => Except.ok []
  | tool_call :: rest => do
      let args ← json_loads_or_raise loads tool_call.function.arguments
      let turns ← tool_call_turns loads rest
      Except.ok
        (⟨"model", [Part.function_call tool_call.function.name args]⟩ :: turns)

/-- The body of the `for message in messages` loop of `convert_request`
(lines 41-85 of the source), acting on the state
`(contents, system_instruction)`.  A message with a role other than
system/user/assistant/tool matches no branch and leaves the state
unchanged. -/
def process_message (loads : String → Option JsonVal)
    (st : List Turn × Option JsonVal) (message : ChatMessage) :
    Except PyErr (List Turn × Option JsonVal) :=
  let contents := st.1
  let system_instruction := st.2
  let role := message.role
  let content := message.content
  if role = "system" then
    Except.ok (contents, some content)
  else if role = "user" then
    Except.ok (contents ++ [⟨"user", [Part.text content]⟩], system_instruction)
  else if role = "assistant" then
    if message.tool_calls ≠ [] then do
      let turns ← tool_call_turns loads message.tool_calls
      Except.ok (contents ++ turns, system_instruction)
    else
      Except.ok (contents ++ [⟨"model", [Part.text content]⟩], system_instruction)
  else if role = "tool" then do
    let response ←
      match content with
      | JsonVal.str s => json_loads_or_raise loads s
      | v => Except.ok v
    Except.ok
      (contents ++ [⟨"user", [Part.function_response message.name response]⟩],
       system_instruction)
  else
    Except.ok st

/-- `GoogleRestMessageConverter.convert_request` (lines 30-93 of the
source): fold the loop body over the messages, then emit `contents` and,
when the final `system_instruction` is truthy, the `systemInstruction`
key. -/
def convert_request (loads : String → Option JsonVal)
    (messages : List ChatMessage) : Except PyErr RequestPayload := do
  let st ← messages.foldlM (process_message loads) ([], none)
  match st.2 with
  | some v => if truthy v then pure ⟨st.1, some v⟩ else pure ⟨st.1, none⟩
  | none => pure ⟨st.1, none⟩

/-- A part of a vendor response candidate as the loop at lines 113-125 of
the source distinguishes them: a dict with a `"function_call"` key, a dict
with a `"text"` key, or a dict with neither (skipped). -/
inductive RespPart where
  | function_call (name : String) (args : JsonVal) : RespPart
  | text (value : String) : RespPart
  | other : RespPart

/-- `candidate["content"]` when the key exists: a dict whose `"parts"` key
may be absent (`none`). -/
structure CandidateContent where
  parts : Option (List RespPart)

/-- One element of `response_data["candidates"]`; its `"content"` key may
be absent. -/
structure Candidate where
  content : Option CandidateContent

/-- The vendor response document: its `"candidates"` key may be absent. -/
structure VendorResponse where
  candidates : Option (List Candidate)

/-- `Modelled from the spec:` the `aisuite.framework` `Message` record is
not under `src/`; its fields are taken from the constructor calls at
lines 129-140 of the source and the spec's CanonicalResponse data model
(nested tool-call dict `\x7b"type", "id", "function"\x7d`). -/
structure OutFunction where
  name : String
  arguments : String
deriving Repr, DecidableEq

/-- One synthesized tool call of the canonical response. -/
structure OutToolCall where
  type : String
  id : String
  function : OutFunction
deriving Repr, DecidableEq

/-- `Modelled from the spec:` the canonical response message
(`aisuite.framework` is not under `src/`): role, optional content,
tool calls (`[]` embeds the absent/None default). -/
structure OutMessage where
  role : String
  content : Option String
  tool_calls : List OutToolCall
deriving Repr, DecidableEq

/-- `Modelled from the spec:` the single populated choice of the
`ChatCompletionResponse` the source fills in: message and finish reason. -/
structure CanonicalResponse where
  message : OutMessage
  finish_reason : String
deriving Repr, DecidableEq

/-- The body of the `for part in parts` loop of `convert_response`
(lines 113-125 of the source): a function-call part appends a synthesized
tool call, a text part extends `text_content`, any other part is
skipped. -/
def collect_step (pyHash : String → Int) (acc : List OutToolCall × String)
    (part : RespPart) : List OutToolCall × String :=
  match part with
  | RespPart.function_call name args =>
      (acc.1 ++
        [⟨"function", "call_" ++ toString (pyHash name),
          ⟨name, json_dumps args⟩⟩],
       acc.2)
  | RespPart.text t => (acc.1, acc.2 ++ t)
  | RespPart.other => acc

/-- The part loop of `convert_response` (lines 110-125 of the source):
fold over the parts accumulating the `function_calls` list and the
concatenated `text_content`. -/
def collect_parts (pyHash : String → Int) (parts : List RespPart) :
    List OutToolCall × String :=
  parts.foldl (collect_step pyHash) ([], "")

/-- The body of the `try` block of `convert_response` (lines 104-141):
the candidate/content/parts lookups (each missing piece raising
`KeyError`/`IndexError`) followed by the part loop and the
function-call/text decision. -/
def convert_response_body (pyHash : String → Int)
    (response_data : VendorResponse) : Except PyErr CanonicalResponse := do
  let candidates ←
    match response_data.candidates with
    | some cs => Except.ok cs
    | none => Except.error (PyErr.keyError "candidates")
  let candidate ←
    match candidates[0]? with
    | some c => Except.ok c
    | none => Except.error PyErr.indexError
  let content ←
    match candidate.content with
    | some c => Except.ok c
    | none => Except.error (PyErr.keyError "content")
  let parts ←
    match content.parts with
    | some ps => Except.ok ps
    | none => Except.error (PyErr.keyError "parts")
  let acc := collect_parts pyHash parts
  if acc.1 ≠ [] then
    pure ⟨⟨"assistant", none, acc.1⟩, "tool_calls"⟩
  else
    pure ⟨⟨"assistant", some acc.2, []⟩, "stop"⟩

/-- `GoogleRestMessageConverter.convert_response` (lines 96-146): the try
body, with `KeyError`/`IndexError` re-raised as
`ValueError(f"Invalid response format from Google Gemini API: ...")`
carrying the original exception's text. -/
def convert_response (pyHash : String → Int)
    (response_data : VendorResponse) : Except PyErr CanonicalResponse :=
  match convert_response_body pyHash response_data with
  | Except.ok r => Except.ok r
  | Except.error e =>
      Except.error (PyErr.valueError
        ("Invalid response format from Google Gemini API: " ++ e.text))

/-- A well-formed vendor response with a single candidate carrying the
given parts (the shape the happy-path claims quantify over). -/
def mk_vendor_response (parts : List RespPart) : VendorResponse :=
  ⟨some [⟨some ⟨some parts⟩⟩]⟩

/-- Whether a response part is a function-call part. -/
def is_function_call : RespPart → Bool
  | RespPart.function_call _ _ => true
  | _ => false

/-- The text carried by a response part, if any. -/
def text_of : RespPart → Option String
  | RespPart.text t => some t
  | _ => none

/-- Concatenation, in order, of the text carried by the text parts of a
parts list. -/
def concat_texts : List RespPart → String
  | [] => ""
  | p :: ps =>
      match text_of p with
      | some t => t ++ concat_texts ps
      | none => concat_texts ps

/-- The `OutToolCall` that the part loop synthesizes from a function-call
part (and `none` on the other parts). -/
def mk_out_tool_call (pyHash : String → Int) : RespPart → Option OutToolCall
  | RespPart.function_call name args =>
      some ⟨"function", "call_" ++ toString (pyHash name),
            ⟨name, json_dumps args⟩⟩
  | _ => none

/-- The content of the last system-role message of the input, if any. -/
def last_system_content : List ChatMessage → Option JsonVal
  | [] => none
  | m :: ms =>
      match last_system_content ms with
      | some c => some c
      | none => if m.role = "system" then some m.content else none

/-- Whether a message's role is one of the four the converter handles. -/
def known_role (m : ChatMessage) : Bool :=
  m.role = "system" || m.role = "user" || m.role = "assistant" || m.role = "tool"

/-- Gemini role of a canonical text-turn role: assistant becomes model. -/
def vendor_role (r : String) : String :=
  if r = "assistant" then "model" else r

/-- Canonical role read back from a Gemini turn role. -/
def canonical_role (r : String) : String :=
  if r = "model" then "assistant" else r

/-- The vendor turn `convert_request` emits for a plain user or assistant
text message. -/
def text_turn (m : ChatMessage) : Turn :=
  ⟨vendor_role m.role, [Part.text m.content]⟩

@[simp]
theorem ok_bind {ε α β : Type} (a : α) (g : α → Except ε β) :
    (Except.ok a >>= g : Except ε β) = g a := rfl

@[simp]
theorem error_bind {ε α β : Type} (e : ε) (g : α → Except ε β) :
    ((Except.error e : Except ε α) >>= g) = Except.error e := rfl

@[simp]
theorem except_pure {ε α : Type} (a : α) :
    (pure a : Except ε α) = Except.ok a := rfl

theorem collect_step_foldl (pyHash : String → Int) (parts : List RespPart)
    (calls : List OutToolCall) (text : String) :
    parts.foldl (collect_step pyHash) (calls, text)
      = (calls ++ parts.filterMap (mk_out_tool_call pyHash),
         text ++ concat_texts parts) := by
  induction parts generalizing calls text with
  | nil => simp [concat_texts]
  | cons p ps ih =>
    cases p with
    | function_call name args =>
        simp [collect_step, mk_out_tool_call, concat_texts, text_of, ih]
    | text t =>
        simp [collect_step, mk_out_tool_call, concat_texts, text_of, ih,
              String.append_assoc]
    | other =>
        simp [collect_step, mk_out_tool_call, concat_texts, text_of, ih]

theorem collect_parts_eq (pyHash : String → Int) (parts : List RespPart) :
    collect_parts pyHash parts
      = (parts.filterMap (mk_out_tool_call pyHash), concat_texts parts) := by
  simpa using collect_step_foldl pyHash parts [] ""

theorem filterMap_mk_ne_nil (pyHash : String → Int) (parts : List RespPart) :
    (parts.filterMap (mk_out_tool_call pyHash) ≠ [])
      ↔ parts.any is_function_call = true := by
  induction parts with
  | nil => simp
  | cons p ps ih => cases p <;> simp [mk_out_tool_call, is_function_call, ih]

theorem mem_filterMap_mk_id (pyHash : String → Int) (parts : List RespPart) :
    ∀ tc ∈ parts.filterMap (mk_out_tool_call pyHash),
      tc.id = "call_" ++ toString (pyHash tc.function.name) := by
  induction parts with
  | nil => simp
  | cons p ps ih =>
    cases p <;> simp only [mk_out_tool_call, List.filterMap_cons] <;>
      first
      | exact ih
      | · intro tc h
          rcases List.mem_cons.mp h with h1 | h1
          · subst h1; rfl
          · exact ih tc h1

theorem convert_response_single (pyHash : String → Int)
    (parts : List RespPart) :
    convert_response pyHash (mk_vendor_response parts)
      = (if parts.filterMap (mk_out_tool_call pyHash) ≠ [] then
           Except.ok
             ⟨⟨"assistant", none, parts.filterMap (mk_out_tool_call pyHash)⟩,
              "tool_calls"⟩
         else
           Except.ok ⟨⟨"assistant", some (concat_texts parts), []⟩, "stop"⟩) := by
  simp only [convert_response, convert_response_body, mk_vendor_response,
    List.getElem?_cons_zero, ok_bind, except_pure, collect_parts_eq]
  split
  · next heq => exact heq.symm
  · next heq => split at heq <;> simp at heq

/-- C2: for every well-formed single-candidate response, `convert_response`
returns a canonical response with content XOR tool calls: when the parts
contain at least one function-call part (however many text parts accompany
it) the content is `none`, the tool calls are non-empty and the finish
reason is `"tool_calls"`, the accumulated text being discarded; otherwise
the tool calls are empty and the finish reason is `"stop"`. -/
theorem tool_call_exclusivity (pyHash : String → Int) (parts : List RespPart) :
    ∃ r, convert_response pyHash (mk_vendor_response parts) = Except.ok r ∧
      (if parts.any is_function_call then
         r.message.content = none ∧ r.message.tool_calls ≠ [] ∧
           r.finish_reason = "tool_calls"
       else
         r.message.tool_calls = [] ∧ r.finish_reason = "stop") := by
  rw [convert_response_single]
  by_cases h : parts.any is_function_call
  · have hne := (filterMap_mk_ne_nil pyHash parts).mpr h
    refine ⟨_, if_pos hne, ?_⟩
    simp [h, hne]
  · have hnil : parts.filterMap (mk_out_tool_call pyHash) = [] := by
      by_contra hne
      exact h ((filterMap_mk_ne_nil pyHash parts).mp hne)
    refine ⟨_, if_neg (by simp [hnil]), ?_⟩
    simp [h]

/-- C3: `convert_response` on a payload with zero candidates, or whose
first candidate lacks the `content` or `parts` key (or with no
`candidates` key at all), returns the `ValueError` carrying the original
`KeyError`/`IndexError` text and produces no canonical response. -/
theorem malformed_response_raises_value_error (pyHash : String → Int)
    (rest : List Candidate) :
    convert_response pyHash ⟨none⟩
        = Except.error (PyErr.valueError
            "Invalid response format from Google Gemini API: 'candidates'")
    ∧ convert_response pyHash ⟨some []⟩
        = Except.error (PyErr.valueError
            "Invalid response format from Google Gemini API: list index out of range")
    ∧ convert_response pyHash ⟨some (⟨none⟩ :: rest)⟩
        = Except.error (PyErr.valueError
            "Invalid response format from Google Gemini API: 'content'")
    ∧ convert_response pyHash ⟨some (⟨some ⟨none⟩⟩ :: rest)⟩
        = Except.error (PyErr.valueError
            "Invalid response format from Google Gemini API: 'parts'") := by
  refine ⟨rfl, rfl, ?_, ?_⟩ <;>
    simp [convert_response, convert_response_body, PyErr.text]

/-- C7: a well-formed response whose parts contain no function-call part
yields finish reason `"stop"`, empty tool calls and content equal to the
in-order concatenation of the text parts (the empty string when the parts
yield no text). -/
theorem text_only_response_stop (pyHash : String → Int)
    (parts : List RespPart) (h : parts.any is_function_call = false) :
    convert_response pyHash (mk_vendor_response parts)
      = Except.ok ⟨⟨"assistant", some (concat_texts parts), []⟩, "stop"⟩ := by
  rw [convert_response_single]
  have hnil : parts.filterMap (mk_out_tool_call pyHash) = [] := by
    by_contra hne
    rw [(filterMap_mk_ne_nil pyHash parts).mp hne] at h
    cases h
  rw [if_neg (by simp [hnil])]

/-- Witness for C7 at a concrete parts list with two text parts and a
part carrying neither key. -/
theorem text_only_response_stop_witness :
    ([RespPart.text "Hello, ", RespPart.other,
        RespPart.text "world"].any is_function_call = false)
    ∧ convert_response (fun _ => 0)
        (mk_vendor_response
          [RespPart.text "Hello, ", RespPart.other, RespPart.text "world"])
        = Except.ok ⟨⟨"assistant", some "Hello, world", []⟩, "stop"⟩ := by
  refine ⟨rfl, ?_⟩
  rw [text_only_response_stop (fun _ => 0)
    [RespPart.text "Hello, ", RespPart.other, RespPart.text "world"] rfl]
  rfl

/-- C8: the synthesized tool-call id is a function of the function name
alone — the produced tool-call list is exactly the in-order image of the
function-call parts, each entry carrying its part's name and
JSON-serialized argument map, and every entry's id equals
`"call_" ++ hash(name)`, so two calls to the same function receive the
same id. -/
theorem tool_call_ids_from_name (pyHash : String → Int)
    (parts : List RespPart) :
    ∃ r, convert_response pyHash (mk_vendor_response parts) = Except.ok r ∧
      r.message.tool_calls = parts.filterMap (mk_out_tool_call pyHash) ∧
      r.message.tool_calls.map OutToolCall.id
        = r.message.tool_calls.map
            (fun tc => "call_" ++ toString (pyHash tc.function.name)) := by
  rw [convert_response_single]
  by_cases hne : parts.filterMap (mk_out_tool_call pyHash) ≠ []
  · refine ⟨_, if_pos hne, rfl, ?_⟩
    exact List.map_congr_left (mem_filterMap_mk_id pyHash parts)
  · have hnil : parts.filterMap (mk_out_tool_call pyHash) = [] := by
      by_contra hc
      exact hne hc
    refine ⟨_, if_neg hne, ?_, rfl⟩
    exact hnil.symm

theorem tool_call_turns_ok (loads : String → Option JsonVal)
    (tcs : List ToolCallIn) (argv : ToolCallIn → JsonVal)
    (h : ∀ tc ∈ tcs, loads tc.function.arguments = some (argv tc)) :
    tool_call_turns loads tcs = Except.ok
      (tcs.map (fun tc =>
        (⟨"model", [Part.function_call tc.function.name (argv tc)]⟩ : Turn))) := by
  induction tcs with
  | nil => rfl
  | cons tc rest ih =>
    have h1 : loads tc.function.arguments = some (argv tc) :=
      h tc (List.mem_cons_self tc rest)
    have h2 := ih (fun x hx => h x (List.mem_cons_of_mem tc hx))
    simp [tool_call_turns, json_loads_or_raise, h1, h2]

theorem process_message_sys (loads : String → Option JsonVal)
    (st : List Turn × Option JsonVal) (m : ChatMessage)
    (st' : List Turn × Option JsonVal)
    (h : process_message loads st m = Except.ok st') :
    st'.2 = if m.role = "system" then some m.content else st.2 := by
  simp only [process_message] at h
  split_ifs at h with h1 h2 h3 h4 h5
  · injection h with h
    subst h
    rw [if_pos h1]
  · injection h with h
    subst h
    rw [if_neg h1]
  · rw [if_neg h1]
    cases htc : tool_call_turns loads m.tool_calls with
    | error e => rw [htc] at h; simp at h
    | ok turns =>
        rw [htc] at h
        simp only [ok_bind] at h
        injection h with h
        subst h
        rfl
  · injection h with h
    subst h
    rw [if_neg h1]
  · rw [if_neg h1]
    cases hc : m.content with
    | str s =>
        rw [hc] at h
        cases hl : loads s with
        | none =>
            simp only [json_loads_or_raise, hl] at h
            simp at h
        | some v =>
            simp only [json_loads_or_raise, hl, ok_bind] at h
            injection h with h
            subst h
            rfl
    | null => rw [hc] at h; simp only [ok_bind] at h; injection h with h; subst h; rfl
    | bool b => rw [hc] at h; simp only [ok_bind] at h; injection h with h; subst h; rfl
    | num n => rw [hc] at h; simp only [ok_bind] at h; injection h with h; subst h; rfl
    | arr elems => rw [hc] at h; simp only [ok_bind] at h; injection h with h; subst h; rfl
    | obj members => rw [hc] at h; simp only [ok_bind] at h; injection h with h; subst h; rfl
  · injection h with h
    subst h
    rw [if_neg h1]

theorem fold_sys (loads : String → Option JsonVal) (msgs : List ChatMessage) :
    ∀ st st', msgs.foldlM (process_message loads) st = Except.ok st' →
      st'.2 = match last_system_content msgs with
              | some c => some c
              | none => st.2 := by
  induction msgs with
  | nil =>
      intro st st' h
      simp only [List.foldlM_nil, except_pure] at h
      injection h with h
      subst h
      rfl
  | cons m ms ih =>
      intro st st' h
      rw [List.foldlM_cons] at h
      cases hpm : process_message loads st m with
      | error e => rw [hpm] at h; simp at h
      | ok st1 =>
          rw [hpm] at h
          simp only [ok_bind] at h
          have h2 := ih st1 st' h
          have h3 := process_message_sys loads st m st1 hpm
          simp only [last_system_content]
          cases hlast : last_system_content ms with
          | some c => rw [hlast] at h2; exact h2
          | none =>
              rw [hlast] at h2
              rw [h2, h3]
              by_cases hs : m.role = "system"
              · rw [if_pos hs, if_pos hs]
              · rw [if_neg hs, if_neg hs]

theorem fold_text_turns (loads : String → Option JsonVal)
    (msgs : List ChatMessage)
    (h : ∀ m ∈ msgs, (m.role = "user" ∨ m.role = "assistant")
           ∧ m.tool_calls = []) :
    ∀ st, msgs.foldlM (process_message loads) st
      = Except.ok (st.1 ++ msgs.map text_turn, st.2) := by
  induction msgs with
  | nil => intro st; simp
  | cons m ms ih =>
      intro st
      obtain ⟨hrole, htc⟩ := h m (List.mem_cons_self m ms)
      have ih2 := ih (fun x hx => h x (List.mem_cons_of_mem m hx))
      rw [List.foldlM_cons]
      have hpm : process_message loads st m
          = Except.ok (st.1 ++ [text_turn m], st.2) := by
        rcases hrole with hu | ha
        · simp [process_message, hu, text_turn, vendor_role]
        · simp [process_message, ha, htc, text_turn, vendor_role]
      rw [hpm]
      simp only [ok_bind]
      rw [ih2]
      simp [List.append_assoc]

/-- C1 (code bug): contrary to the claim, a tool-role message whose string
content the JSON parser rejects makes `convert_request` raise the
`json.JSONDecodeError` coming out of `json.loads(content)` at line 82 of
the source — there is no fallback placing the raw string in the
function-response payload. -/
theorem tool_content_json_failure_raises (loads : String → Option JsonVal)
    (s n : String) (h : loads s = none) :
    convert_request loads [⟨"tool", JsonVal.str s, [], n⟩]
      = Except.error (PyErr.jsonDecodeError s) := by
  simp [convert_request, process_message, json_loads_or_raise, h]

/-- Witness for C1 at the concrete document `"not json"` with a parser
rejecting it. -/
theorem tool_content_json_failure_raises_witness :
    ((fun _ : String => (none : Option JsonVal)) "not json" = none)
    ∧ convert_request (fun _ => none)
        [⟨"tool", JsonVal.str "not json", [], "get_weather"⟩]
        = Except.error (PyErr.jsonDecodeError "not json") :=
  ⟨rfl,
   tool_content_json_failure_raises (fun _ => none) "not json" "get_weather" rfl⟩

/-- C4 (counterexample): for the input `system "A"` then `system ""` the
emitted payload has no `systemInstruction` at all, while the claim as
stated demands it equal the last system message's content `""`. -/
theorem system_instruction_empty_counterexample :
    convert_request (fun _ => none)
        [⟨"system", JsonVal.str "A", [], ""⟩, ⟨"system", JsonVal.str "", [], ""⟩]
      = Except.ok ⟨[], none⟩
    ∧ last_system_content
        [⟨"system", JsonVal.str "A", [], ""⟩, ⟨"system", JsonVal.str "", [], ""⟩]
      = some (JsonVal.str "")
    ∧ (none : Option JsonVal) ≠ some (JsonVal.str "") :=
  ⟨rfl, rfl, fun hcontra => Option.noConfusion hcontra⟩

/-- C4 (amended): each system message overwrites the system-instruction
slot, so the payload carries the last system message's content whenever
that content is truthy, and omits the key when it is falsy (for instance
the empty string); in particular `"A"` then `"B"` yields `"B"`. -/
theorem system_instruction_last_wins (loads : String → Option JsonVal)
    (msgs : List ChatMessage) (c : JsonVal)
    (hlast : last_system_content msgs = some c) (p : RequestPayload)
    (h : convert_request loads msgs = Except.ok p) :
    p.systemInstruction = if truthy c then some c else none := by
  unfold convert_request at h
  cases hst : msgs.foldlM (process_message loads) ([], none) with
  | error e => rw [hst] at h; simp at h
  | ok st =>
      rw [hst] at h
      simp only [ok_bind] at h
      have h2 := fold_sys loads msgs ([], none) st hst
      rw [hlast] at h2
      rw [h2] at h
      by_cases ht : truthy c
      · rw [if_pos ht]
        simp only [ht, if_true, except_pure] at h
        injection h with h
        subst h
        rfl
      · rw [if_neg ht]
        simp only [ht, if_false, except_pure, Bool.false_eq_true] at h
        injection h with h
        subst h
        rfl

/-- Witness for the amended C4 at the input `system "A"` then
`system "B"`. -/
theorem system_instruction_last_wins_witness :
    last_system_content
        [⟨"system", JsonVal.str "A", [], ""⟩, ⟨"system", JsonVal.str "B", [], ""⟩]
      = some (JsonVal.str "B")
    ∧ convert_request (fun _ => none)
        [⟨"system", JsonVal.str "A", [], ""⟩, ⟨"system", JsonVal.str "B", [], ""⟩]
      = Except.ok ⟨[], some (JsonVal.str "B")⟩
    ∧ (⟨[], some (JsonVal.str "B")⟩ : RequestPayload).systemInstruction
      = (if truthy (JsonVal.str "B") then some (JsonVal.str "B") else none) :=
  ⟨rfl, rfl,
   system_instruction_last_wins (fun _ => none)
     [⟨"system", JsonVal.str "A", [], ""⟩, ⟨"system", JsonVal.str "B", [], ""⟩]
     (JsonVal.str "B") rfl ⟨[], some (JsonVal.str "B")⟩ rfl⟩

/-- C5: a sequence made only of user turns and assistant text turns
converts without error, and reading each emitted turn's role back through
the user↔user / assistant↔model mapping together with its single text
part reproduces the original role sequence and content in order. -/
theorem text_turns_round_trip (loads : String → Option JsonVal)
    (msgs : List ChatMessage)
    (h : ∀ m ∈ msgs, (m.role = "user" ∨ m.role = "assistant")
           ∧ m.tool_calls = []) :
    ∃ p, convert_request loads msgs = Except.ok p ∧
      p.contents.map (fun t => (canonical_role t.role, t.parts))
        = msgs.map (fun m => (m.role, [Part.text m.content])) := by
  refine ⟨⟨msgs.map text_turn, none⟩, ?_, ?_⟩
  · unfold convert_request
    rw [fold_text_turns loads msgs h ([], none)]
    simp
  · rw [List.map_map]
    apply List.map_congr_left
    intro m hm
    obtain ⟨hrole, _⟩ := h m hm
    rcases hrole with hu | ha
    · simp [Function.comp, text_turn, vendor_role, canonical_role, hu]
    · simp [Function.comp, text_turn, vendor_role, canonical_role, ha]

/-- Witness for C5 at the two-message input `user "Hi"`,
`assistant "Hello"`. -/
theorem text_turns_round_trip_witness :
    (∀ m ∈ ([⟨"user", JsonVal.str "Hi", [], ""⟩,
             ⟨"assistant", JsonVal.str "Hello", [], ""⟩] : List ChatMessage),
        (m.role = "user" ∨ m.role = "assistant") ∧ m.tool_calls = [])
    ∧ ∃ p, convert_request (fun _ => none)
          [⟨"user", JsonVal.str "Hi", [], ""⟩,
           ⟨"assistant", JsonVal.str "Hello", [], ""⟩] = Except.ok p ∧
        p.contents.map (fun t => (canonical_role t.role, t.parts))
          = ([⟨"user", JsonVal.str "Hi", [], ""⟩,
              ⟨"assistant", JsonVal.str "Hello", [], ""⟩] : List ChatMessage).map
              (fun m => (m.role, [Part.text m.content])) := by
  have hh : ∀ m ∈ ([⟨"user", JsonVal.str "Hi", [], ""⟩,
             ⟨"assistant", JsonVal.str "Hello", [], ""⟩] : List ChatMessage),
      (m.role = "user" ∨ m.role = "assistant") ∧ m.tool_calls = [] := by
    intro m hm
    rcases List.mem_cons.mp hm with h1 | h1
    · subst h1; exact ⟨Or.inl rfl, rfl⟩
    · rcases List.mem_cons.mp h1 with h2 | h2
      · subst h2; exact ⟨Or.inr rfl, rfl⟩
      · cases h2
  exact ⟨hh, text_turns_round_trip (fun _ => none) _ hh⟩

/-- C6: an assistant message with a non-empty tool-call list, each call's
arguments being a string the JSON parser accepts, appends one model turn
per tool call in order, each consisting of a single function-call part
whose args are the decoded arguments; no text part is emitted. -/
theorem assistant_tool_calls_turns (loads : String → Option JsonVal)
    (st : List Turn × Option JsonVal) (m : ChatMessage)
    (argv : ToolCallIn → JsonVal)
    (hrole : m.role = "assistant") (hne : m.tool_calls ≠ [])
    (hargs : ∀ tc ∈ m.tool_calls,
        loads tc.function.arguments = some (argv tc)) :
    process_message loads st m = Except.ok
      (st.1 ++ m.tool_calls.map
        (fun tc => (⟨"model",
          [Part.function_call tc.function.name (argv tc)]⟩ : Turn)),
       st.2) := by
  simp [process_message, hrole, hne,
    tool_call_turns_ok loads m.tool_calls argv hargs]

/-- Witness for C6 at an assistant message with two tool calls whose
arguments both decode to `null`. -/
theorem assistant_tool_calls_turns_witness :
    ((⟨"assistant", JsonVal.null,
        [⟨"1", ⟨"f", "null"⟩⟩, ⟨"2", ⟨"g", "null"⟩⟩], ""⟩ : ChatMessage).role
      = "assistant")
    ∧ ((⟨"assistant", JsonVal.null,
        [⟨"1", ⟨"f", "null"⟩⟩, ⟨"2", ⟨"g", "null"⟩⟩], ""⟩ : ChatMessage).tool_calls
      ≠ [])
    ∧ process_message (fun _ => some JsonVal.null) ([], none)
        ⟨"assistant", JsonVal.null,
         [⟨"1", ⟨"f", "null"⟩⟩, ⟨"2", ⟨"g", "null"⟩⟩], ""⟩
      = Except.ok
          ([⟨"model", [Part.function_call "f" JsonVal.null]⟩,
            ⟨"model", [Part.function_call "g" JsonVal.null]⟩], none) := by
  refine ⟨rfl, by simp, ?_⟩
  rw [assistant_tool_calls_turns (fun _ => some JsonVal.null) ([], none)
    ⟨"assistant", JsonVal.null,
     [⟨"1", ⟨"f", "null"⟩⟩, ⟨"2", ⟨"g", "null"⟩⟩], ""⟩
    (fun _ => JsonVal.null) rfl (by simp) (fun tc _ => rfl)]
  rfl

/-- C9: a message whose role is none of system/user/assistant/tool is
silently skipped — converting a sequence equals converting the sequence
with all such messages removed. -/
theorem unknown_roles_skipped (loads : String → Option JsonVal)
    (msgs : List ChatMessage) :
    convert_request loads msgs
      = convert_request loads (msgs.filter known_role) := by
  have key : ∀ (ms : List ChatMessage) (st : List Turn × Option JsonVal),
      List.foldlM (process_message loads) st ms
        = List.foldlM (process_message loads) st (ms.filter known_role) := by
    intro ms
    induction ms with
    | nil => intro st; rfl
    | cons m rest ih =>
        intro st
        by_cases hk : known_role m
        · rw [List.filter_cons_of_pos hk, List.foldlM_cons, List.foldlM_cons]
          cases hpm : process_message loads st m with
          | error e => simp
          | ok st1 => simp only [ok_bind]; exact ih st1
        · have hskip : process_message loads st m = Except.ok st := by
            simp only [known_role, Bool.or_eq_true, decide_eq_true_eq,
              not_or] at hk
            obtain ⟨⟨⟨h1, h2⟩, h3⟩, h4⟩ := hk
            simp [process_message, h1, h2, h3, h4]
          rw [List.filter_cons_of_neg hk, List.foldlM_cons, hskip]
          simp only [ok_bind]
          exact ih st
  unfold convert_request
  rw [key msgs ([], none)]

/-- C10: when the input has no system message, or the last system
message's content is the empty string, the emitted payload carries no
`systemInstruction` key at all. -/
theorem empty_system_instruction_dropped (loads : String → Option JsonVal)
    (msgs : List ChatMessage) (p : RequestPayload)
    (h : convert_request loads msgs = Except.ok p)
    (hlast : last_system_content msgs = none
        ∨ last_system_content msgs = some (JsonVal.str "")) :
    p.systemInstruction = none := by
  unfold convert_request at h
  cases hst : msgs.foldlM (process_message loads) ([], none) with
  | error e => rw [hst] at h; simp at h
  | ok st =>
      rw [hst] at h
      simp only [ok_bind] at h
      have h2 := fold_sys loads msgs ([], none) st hst
      rcases hlast with hl | hl
      · rw [hl] at h2
        rw [h2] at h
        simp only [except_pure] at h
        injection h with h
        subst h
        rfl
      · rw [hl] at h2
        rw [h2] at h
        simp only [truthy, except_pure] at h
        simp at h
        rw [← h]

/-- Witness for C10 at a single user message (no system message at
all). -/
theorem empty_system_instruction_dropped_witness :
    convert_request (fun _ => none) [⟨"user", JsonVal.str "Hi", [], ""⟩]
      = Except.ok ⟨[⟨"user", [Part.text (JsonVal.str "Hi")]⟩], none⟩
    ∧ (last_system_content [⟨"user", JsonVal.str "Hi", [], ""⟩] = none
        ∨ last_system_content [⟨"user", JsonVal.str "Hi", [], ""⟩]
          = some (JsonVal.str ""))
    ∧ (⟨[⟨"user", [Part.text (JsonVal.str "Hi")]⟩], none⟩
        : RequestPayload).systemInstruction = none :=
  ⟨rfl, Or.inl rfl,
   empty_system_instruction_dropped (fun _ => none)
     [⟨"user", JsonVal.str "Hi", [], ""⟩]
     ⟨[⟨"user", [Part.text (JsonVal.str "Hi")]⟩], none⟩ rfl (Or.inl rfl)⟩

end GoogleRest
